import Mathlib

/-!
Verification of the tracklistify core (`src/tracklistify/core/base.py`).

Shallow embedding notes:
* Python floats (durations, timestamps) are modelled as exact rationals `ℚ`;
  the claims under scrutiny are arithmetic-level statements.
* Effectful calls (mutagen read, ffmpeg subprocess, recognition backend,
  serializers, file removal) are modelled by explicit oracles passed in an
  environment record; an oracle answer of `none` / `.error` models the
  corresponding Python exception, which the source catches where shown.
* Python `int(x)` (truncation toward zero) is `pyInt`; the `f"{x:.0f}"`
  rounding used for segment file names is `fmt0` (rounding to the nearest
  integer; the half-even/half-up difference at exact halves is immaterial
  to every statement below).
-/

set_option linter.unusedVariables false

namespace Tracklistify

/-- Python `int(x)` on a rational: truncation toward zero. -/
def pyInt (x : ℚ) : ℤ :=
  if 0 ≤ x then ⌊x⌋ else -⌊-x⌋

/-- Model of Python `f"{x:.0f}"`: rounding to the nearest integer. -/
def fmt0 (x : ℚ) : ℤ :=
  round x

/-- Segment file name key: the source names files
`segment_{current_time:.0f}_{segment_length:.0f}.mp3`; the pair of rounded
numbers is the varying part of the name. -/
abbrev FileName := ℤ × ℤ

/-- `AudioSegment` from `tracklistify.core.types`: the fields the core
constructs (`file_path`, `start_time`, `duration`, the latter two via
Python `int(...)`). -/
structure AudioSegment where
  file_path : FileName
  start_time : ℤ
  duration : ℤ
deriving DecidableEq, Repr

/-- One entry of `segment_params` built in `AsyncApp.split_audio`:
nominal window (`start_time`, `length`), the output file, and the padded
extraction window passed to ffmpeg via `-ss` / `-t`. -/
structure SegmentPlan where
  start_time : ℚ
  length : ℚ
  file : FileName
  pad_start : ℚ
  pad_length : ℚ
deriving DecidableEq, Repr

instance : Inhabited SegmentPlan :=
  ⟨⟨0, 0, (0, 0), 0, 0⟩⟩

/-- The loop body of `split_audio`'s planning loop at `current_time = t`:
`segment_length = min(segment_duration, duration - current_time)`,
file name from the rounded pair, padding
`start_time = max(0, t - 0.5)`, `end_time = min(duration, t + len + 0.5)`. -/
def mkPlan (d s : ℚ) (t : ℚ) : SegmentPlan :=
  let len : ℚ := min s (d - t)
  let padStart : ℚ := max 0 (t - 1/2)
  let padEnd : ℚ := min d (t + len + 1/2)
  { start_time := t
    length := len
    file := (fmt0 t, fmt0 len)
    pad_start := padStart
    pad_length := padEnd - padStart }

/-- The `while current_time < duration` planning loop of `split_audio`,
written with explicit fuel (the source loop terminates exactly when
`step > 0`; `splitPlans` supplies sufficient fuel). -/
def planLoopFuel (d s step : ℚ) : Nat → ℚ → List SegmentPlan
  | 0, _ => []
  | fuel + 1, t =>
    if t < d then mkPlan d s t :: planLoopFuel d s step fuel (t + step)
    else []

/-- `split_audio`'s segment-parameter planning: iterate from `current_time = 0`
in steps of `step = segment_length - overlap_duration`.  The fuel
`(d / (s - o)).num.toNat + 1` dominates the loop's iteration count
`⌈d / (s - o)⌉` whenever `0 < s - o` (proved in `planLoopFuel_closed` /
`splitPlans_eq` below), so the embedding agrees with the source loop on
every configuration on which the source loop terminates. -/
def splitPlans (d s o : ℚ) : List SegmentPlan :=
  planLoopFuel d s (s - o) ((d / (s - o)).num.toNat + 1) 0

/-- File system snapshot consulted by `create_segment`: byte size of each
file, `none` = absent. -/
abbrev FileSys := FileName → Option ℕ

/-- Outcome oracle of one ffmpeg invocation for a plan: `none` models a
raised exception (`CalledProcessError` on non-zero exit, or any other
exception); `some st` models a normal return leaving the plan's output
file in state `st` (`none` = missing, `some n` = present with `n` bytes). -/
abbrev Transcoder := SegmentPlan → Option (Option ℕ)

/-- The `AudioSegment` that `create_segment` constructs for a plan
(`file_path=str(file)`, `start_time=int(start_time)`,
`duration=int(length)`); shared by the reuse branch and the
post-transcode branch. -/
def segOf (p : SegmentPlan) : AudioSegment :=
  { file_path := p.file
    start_time := pyInt p.start_time
    duration := pyInt p.length }

/-- The transcode-and-verify path of `create_segment`: run ffmpeg (an
exception yields `None`), then re-check that the output file exists and
exceeds 1000 bytes.  The `Bool` records that the subprocess was invoked. -/
def runTranscode (tr : Transcoder) (p : SegmentPlan) : Option AudioSegment × Bool :=
  match tr p with
  | none => (none, true)
  | some none => (none, true)
  | some (some sz) => if sz > 1000 then (some (segOf p), true) else (none, true)

/-- `create_segment` from `AsyncApp.split_audio`: if the plan's output file
already exists with more than 1000 bytes, reuse it without invoking the
transcoder; otherwise transcode and verify.  Returns the segment (`none`
if the plan was dropped) and whether the subprocess was invoked. -/
def createSegment (fs : FileSys) (tr : Transcoder) (p : SegmentPlan) :
    Option AudioSegment × Bool :=
  match fs p.file with
  | some sz => if sz > 1000 then (some (segOf p), false) else runTranscode tr p
  | none => runTranscode tr p

/-- The materialization step of `split_audio`:
`executor.map(create_segment, segment_params)` (submission order is
preserved by `Executor.map`) followed by filtering out the `None` results. -/
def materialize (fs : FileSys) (tr : Transcoder) (plans : List SegmentPlan) :
    List AudioSegment :=
  (plans.map (fun p => (createSegment fs tr p).1)).filterMap id

/-- `Track`: the fields of the external track entity this core reads
(empty string models a falsy value). -/
structure Track where
  artist : String
  song_name : String
deriving DecidableEq, Repr

/-- The `format` argument of `save_output`: a Python value that is either a
string or something else (rejected by the `isinstance(format, str)` guard). -/
inductive FormatArg where
  | str (s : String)
  | nonString
deriving DecidableEq, Repr

/-- Mix info dictionary built by `_build_mix_info`; `duration = none`
models the key being omitted. -/
structure MixInfo where
  title : String
  artist : String
  date : String
  track_count : ℕ
  duration : Option ℚ
deriving DecidableEq, Repr

/-- `AsyncApp._build_mix_info`.  `storedDuration` is `self.duration`,
which `_set_mix_metadata` always sets to a float (0 when unknown);
`today` is `datetime.now().strftime("%Y-%m-%d")` at build time.  The
source guards the key with Python truthiness (`if duration:`) followed by
a `float(...)` conversion that cannot fail on a float, so the key is
present exactly when the stored value is non-zero. -/
def buildMixInfo (title uploader : String) (storedDuration : ℚ) (today : String)
    (tracks : List Track) : MixInfo :=
  { title := title
    artist := uploader
    date := today
    track_count := tracks.length
    duration := if storedDuration ≠ 0 then some storedDuration else none }

/-- The title fallback chain of `save_output`: stored `original_title`,
else `"{artist} - {song_name}"` of the first track when both are truthy,
else the literal label. -/
def mixTitle (storedTitle : String) (tracks : List Track) : String :=
  if storedTitle ≠ "" then storedTitle
  else
    match tracks with
    | t :: _ =>
      if t.artist ≠ "" ∧ t.song_name ≠ "" then t.artist ++ " - " ++ t.song_name
      else "Identified Mix"
    | [] => "Identified Mix"

/-- Oracles for the Tracklist Serialization backend as driven by
`save_output`: `ctorRaises` models `TracklistOutput(...)` raising,
`saveAll` models `output.save_all()` (`.error ()` = raised), `save fmt`
models `output.save(format)` returning a path or `None`. -/
structure SerializerOracle where
  ctorRaises : Bool
  saveAll : Except Unit (List String)
  save : String → Except Unit (Option String)

/-- Result of `save_output`: the log it emitted and whether the
serialization `try:` block was entered.  The type has no failure case:
the Python counterpart catches every exception. -/
structure SaveReport where
  log : List String
  serializerReached : Bool
deriving DecidableEq, Repr

/-- `AsyncApp.save_output`: empty-track and non-string-format guards (both
log and return), then `TracklistOutput` construction and per-format
serialization inside one `try/except` whose handler only logs. -/
def saveOutput (tracks : List Track) (format : FormatArg)
    (storedTitle uploader : String) (storedDuration : ℚ) (today : String)
    (ser : SerializerOracle) : SaveReport :=
  if tracks.length = 0 then
    { log := ["Cannot save output: No tracks provided"], serializerReached := false }
  else
    match format with
    | .nonString =>
      { log := ["Failed to save tracklist in format: invalid format type"]
        serializerReached := false }
    | .str fmt =>
      let title := mixTitle storedTitle tracks
      let mixInfo := buildMixInfo title uploader storedDuration today tracks
      if ser.ctorRaises then
        { log := ["Error saving tracklist"], serializerReached := true }
      else if fmt = "all" then
        match ser.saveAll with
        | .error _ => { log := ["Error saving tracklist"], serializerReached := true }
        | .ok files =>
          if files.isEmpty then
            { log := ["Failed to save tracklist in any format"], serializerReached := true }
          else
            { log := files.map (fun f => "Saved tracklist to: " ++ f)
              serializerReached := true }
      else
        match ser.save fmt with
        | .error _ => { log := ["Error saving tracklist"], serializerReached := true }
        | .ok (some path) =>
          if path ≠ "" then
            { log := ["Saved " ++ fmt ++ " tracklist to: " ++ path]
              serializerReached := true }
          else
            { log := ["Failed to save tracklist in format: " ++ fmt]
              serializerReached := true }
        | .ok none =>
          { log := ["Failed to save tracklist in format: " ++ fmt]
            serializerReached := true }

/-- Kind of a temp-directory entry, as dispatched by the
`is_file`/`is_dir` chain of `cleanup` (anything else is skipped). -/
inductive EntryKind where
  | file
  | dir
  | other
deriving DecidableEq, Repr

/-- One entry of the temp directory as produced by `temp_dir.glob("*")`,
with its removal-failure oracle (`unlink`/`shutil.rmtree` raising). -/
structure Entry where
  name : String
  kind : EntryKind
  removeFails : Bool
deriving DecidableEq, Repr

/-- State of the temp directory together with the failure oracles of the
cleanup phase (`rmtreeRootFails` = `shutil.rmtree(temp_dir)` raising,
`rmdirFails` = the fallback `temp_dir.rmdir()` raising, `closeFails` =
`identification_manager.close()` raising). -/
structure CleanupWorld where
  tempDirExists : Bool
  entries : List Entry
  rmtreeRootFails : Bool
  rmdirFails : Bool
  closeFails : Bool
deriving DecidableEq, Repr

/-- The per-entry removal loop of `AsyncApp.cleanup`: each failure is
logged (`warning`) and the loop continues; successes are logged at debug
level.  Returns the surviving entries and the log. -/
def removeEntries : List Entry → List Entry × List String
  | [] => ([], [])
  | e :: es =>
    let r := removeEntries es
    match e.kind with
    | .other => (e :: r.1, r.2)
    | .file =>
      if e.removeFails then (e :: r.1, ("Failed to remove " ++ e.name) :: r.2)
      else (r.1, ("Removed temporary file: " ++ e.name) :: r.2)
    | .dir =>
      if e.removeFails then (e :: r.1, ("Failed to remove " ++ e.name) :: r.2)
      else (r.1, ("Removed temporary directory: " ++ e.name) :: r.2)

/-- `AsyncApp.cleanup`: if the temp directory exists, remove its entries
one by one, then `shutil.rmtree` the directory; if that raises, log at
debug level and fall back to `temp_dir.rmdir()`, whose own failure is
swallowed silently (`except Exception: pass`).  Finally close the
identification manager, logging (not raising) any failure.  The return
type has no failure case: nothing can escape this routine. -/
def cleanup (w : CleanupWorld) : CleanupWorld × List String :=
  let dirPhase : CleanupWorld × List String :=
    if w.tempDirExists then
      let r := removeEntries w.entries
      if w.rmtreeRootFails = false then
        ({ w with tempDirExists := false, entries := [] },
          r.2 ++ ["Removed temporary directory"])
      else
        let log := r.2 ++ ["Could not remove temp directory"]
        if w.rmdirFails = false then
          ({ w with tempDirExists := false, entries := r.1 }, log)
        else
          ({ w with entries := r.1 }, log)
    else (w, [])
  let closeLog : List String :=
    if w.closeFails then ["Error cleaning up identification manager"] else []
  (dirPhase.1, dirPhase.2 ++ closeLog)

/-- Diagnostic context attached to `TrackIdentificationError` by
`process_input`. -/
structure TIContext where
  segments_created : ℕ
  input_path : String
  file_duration : ℚ
deriving DecidableEq, Repr

/-- The exceptions `process_input` raises or propagates. -/
inductive RunError where
  | valueError (msg : String)
  | fileNotFound (msg : String)
  | trackIdentification (msg : String) (context : TIContext)
  | backend (msg : String)
deriving DecidableEq, Repr

/-- What `_prepare_input` produced on success: the local audio path, the
source reference (`source_path`), and the metadata stored by
`_set_mix_metadata` (`original_title`, `uploader`, and `self.duration`,
the latter always set — to 0 when unknown). -/
structure PrepResult where
  localPath : String
  sourcePath : String
  title : String
  uploader : String
  duration : ℚ
deriving DecidableEq, Repr

/-- Configuration surface read by this core. -/
structure Config where
  segment_length : ℚ
  overlap_duration : ℚ
  output_format : FormatArg

/-- Result of `mutagen.File(local_path)` as observed by `split_audio`:
`raised e` models `File` itself raising (e.g. `MutagenError` on an
unopenable file) — an exception `split_audio` does not catch, since its
`if audio is None` check only covers a `None` return; `unrecognized`
models `File` returning `None` (unrecognized format); `noDuration`
models the `AttributeError` on `audio.info.length`, which `split_audio`
does catch; `ok d` yields the duration. -/
inductive AudioReadOutcome where
  | raised (e : RunError)
  | unrecognized
  | noDuration
  | ok (d : ℚ)

/-- Environment of one `process_input` run: every external collaborator as
an oracle.  `audioRead` models `mutagen.File(local_path)` (see
`AudioReadOutcome`); `mkdirRaises` models
`temp_dir.mkdir(parents=True, exist_ok=True)`, which runs outside any
`try` in `split_audio` — `some e` means it raised `e`, which propagates;
`identify` models `identification_manager.identify_tracks`; `.error`
models it raising. -/
structure Env where
  prep : Except RunError PrepResult
  audioRead : AudioReadOutcome
  mkdirRaises : Option RunError
  cfg : Config
  cpuCount : Option ℕ
  fs : FileSys
  tr : Transcoder
  identify : List AudioSegment → Except RunError (List Track)
  today : String
  ser : SerializerOracle

/-- `AsyncApp.split_audio`.  Returns `.ok []` when the audio object is
`None` (unrecognized file), when the duration cannot be determined
(`AttributeError`, caught), when `os.cpu_count()` is `None` (the raised
`ValueError` is caught by the outer `except`), and when the plan list is
empty (`ThreadPoolExecutor` with `max_workers = min(_, 0) = 0` raises
`ValueError`, likewise caught); otherwise it materializes the planned
segments.  It is not total: an exception raised by `mutagen.File` itself
or by `temp_dir.mkdir` (both outside every `try` of this function)
propagates as `.error`. -/
def splitAudioFile (env : Env) : Except RunError (List AudioSegment) :=
  match env.audioRead with
  | .raised e => .error e
  | .unrecognized => .ok []
  | .noDuration => .ok []
  | .ok d =>
    match env.mkdirRaises with
    | some e => .error e
    | none =>
      let plans := splitPlans d env.cfg.segment_length env.cfg.overlap_duration
      match env.cpuCount with
      | none => .ok []
      | some _ =>
        if plans.isEmpty then .ok []
        else .ok (materialize env.fs env.tr plans)

/-- The message of the zero-track `TrackIdentificationError`. -/
def noTracksMsg (n : ℕ) : String :=
  "No tracks were identified in the audio file. Created " ++ toString n ++
    " segments but no matches found. This could be due to poor audio quality, " ++
    "instrumental music, or unsupported audio content."

/-- The `try:` body of `process_input` (everything before `finally`):
prepare, segment, identify, save.  Yields the outcome, whether the
recognition backend was invoked, and the `save_output` report when the
Exporting stage ran.  (The source's `else: raise ValueError(...)` after
the `len(tracks) > 0` check is unreachable, the zero-track case having
already raised.) -/
def bodyRun (env : Env) : Except RunError Unit × Bool × Option SaveReport :=
  match env.prep with
  | .error e => (.error e, false, none)
  | .ok prep =>
    match splitAudioFile env with
    | .error e => (.error e, false, none)
    | .ok segs =>
      if segs.isEmpty then
        (.error (.valueError "No audio segments were created"), false, none)
      else
        match env.identify segs with
        | .error e => (.error e, true, none)
        | .ok tracks =>
          if tracks.isEmpty then
            (.error (.trackIdentification (noTracksMsg segs.length)
              { segments_created := segs.length
                input_path := prep.sourcePath
                file_duration := prep.duration }), true, none)
          else
            (.ok (), true,
              some (saveOutput tracks env.cfg.output_format prep.title prep.uploader
                prep.duration env.today env.ser))

/-- True when `split_audio` reached `temp_dir.mkdir(...)` and it
succeeded (so the temp directory exists afterwards): input prepared, the
audio object and its duration both obtained, mkdir did not raise. -/
def mkdirReached (env : Env) : Bool :=
  match env.prep, env.audioRead, env.mkdirRaises with
  | .ok _, .ok _, none => true
  | _, _, _ => false

/-- Result of one `process_input` call: the returned/raised outcome, trace
flags, and the final temp-directory state with the cleanup log. -/
structure RunOutcome where
  result : Except RunError Unit
  recognitionCalled : Bool
  saveReport : Option SaveReport
  world : CleanupWorld
  cleanupLog : List String

/-- `AsyncApp.process_input`: the `try:` body followed unconditionally
(`finally:`) by `cleanup`, whatever the body's outcome. -/
def processInput (env : Env) (w : CleanupWorld) : RunOutcome :=
  let body := bodyRun env
  let w₁ := if mkdirReached env then { w with tempDirExists := true } else w
  let afterClean := cleanup w₁
  { result := body.1
    recognitionCalled := body.2.1
    saveReport := body.2.2
    world := afterClean.1
    cleanupLog := afterClean.2 }

/-! Concrete fixtures used to instantiate the theorems below. -/

/-- A serializer oracle whose single-format save raises. -/
def serRaisingSave : SerializerOracle :=
  { ctorRaises := false, saveAll := .ok [], save := fun _ => .error () }

/-- A run environment whose recognition backend returns no tracks:
duration 125 s, segment length 60 s, overlap 10 s, every plan's output
file already present with 2000 bytes. -/
def envZeroTracks : Env :=
  { prep := .ok { localPath := "mix.mp3", sourcePath := "src", title := "T",
                  uploader := "U", duration := 7 }
    audioRead := .ok 125
    mkdirRaises := none
    cfg := { segment_length := 60, overlap_duration := 10, output_format := .str "json" }
    cpuCount := some 4
    fs := fun _ => some 2000
    tr := fun _ => some (some 2000)
    identify := fun _ => .ok []
    today := "2026-10-12"
    ser := serRaisingSave }

/-- Like `envZeroTracks` but `mutagen.File` returns `None` (the file is
not a recognized audio format). -/
def envUnrecognized : Env :=
  { envZeroTracks with audioRead := .unrecognized }

/-- Like `envZeroTracks` but `mutagen.File` itself raises (unopenable
file): `split_audio` does not catch this. -/
def envMutagenRaises : Env :=
  { envZeroTracks with audioRead := .raised (.backend "MutagenError") }

/-- Like `envZeroTracks` but `temp_dir.mkdir` raises: it runs outside any
`try` in `split_audio`, so the exception propagates. -/
def envMkdirRaises : Env :=
  { envZeroTracks with mkdirRaises := some (.backend "PermissionError") }

/-- Like `envZeroTracks` but recognition finds one track; the serializer
oracle still raises on save. -/
def envOneTrack : Env :=
  { envZeroTracks with identify := fun _ => .ok [{ artist := "A", song_name := "B" }] }

/-- Environment of a run whose input validation already failed. -/
def envInvalidInput : Env :=
  { envZeroTracks with prep := .error (.valueError "Invalid URL or file path provided") }

/-- A temp directory holding one file whose removal raises, with a failing
backend close. -/
def wDirtyWorld : CleanupWorld :=
  { tempDirExists := true
    entries := [{ name := "junk.mp3", kind := .file, removeFails := true }]
    rmtreeRootFails := false
    rmdirFails := false
    closeFails := true }

/-- An empty, healthy world. -/
def wCleanWorld : CleanupWorld :=
  { tempDirExists := false, entries := [], rmtreeRootFails := false,
    rmdirFails := false, closeFails := false }

/-- A concrete segment plan (nominal window `[0, 60)`). -/
def pWitness : SegmentPlan :=
  { start_time := 0, length := 60, file := (0, 60), pad_start := 0, pad_length := 121/2 }

/-- File system with no files. -/
def fsEmpty : FileSys := fun _ => none

/-- File system where every file is present with 2000 bytes. -/
def fsWithOutput : FileSys := fun _ => some 2000

/-- Transcoder that always leaves a 2000-byte output. -/
def trWrites2000 : Transcoder := fun _ => some (some 2000)

/-- Transcoder whose invocation always raises. -/
def trRaises : Transcoder := fun _ => none

/-! ## Helper lemmas -/

/-- The fuel used by `splitPlans` dominates the loop's iteration count. -/
theorem ceil_toNat_le_num_toNat_succ (q : ℚ) : (⌈q⌉).toNat ≤ q.num.toNat + 1 := by
  rcases le_or_lt q 0 with h | h
  · have h0 : ⌈q⌉ ≤ 0 := Int.ceil_le.mpr (by exact_mod_cast h)
    omega
  · have h1 : ⌈q⌉ ≤ ⌊q⌋ + 1 := Int.ceil_le_floor_add_one q
    have h2 : ⌊q⌋ ≤ q.num := by
      have hq : q ≤ (q.num : ℚ) := by
        conv_lhs => rw [← Rat.num_div_den q]
        rw [div_le_iff₀ (by exact_mod_cast q.pos)]
        exact le_mul_of_one_le_right (by exact_mod_cast (Rat.num_pos.mpr h).le)
          (by exact_mod_cast q.pos)
      calc ⌊q⌋ ≤ ⌊(q.num : ℚ)⌋ := Int.floor_le_floor hq
        _ = q.num := Int.floor_intCast q.num
    omega

/-- Closed form of the planning loop: starting at `t` with enough fuel, it
emits `⌈(d - t) / step⌉` plans at `t, t + step, t + 2·step, …`. -/
theorem planLoopFuel_closed (d s step : ℚ) (hstep : 0 < step) :
    ∀ (fuel : ℕ) (t : ℚ), (⌈(d - t) / step⌉).toNat ≤ fuel →
      planLoopFuel d s step fuel t =
        (List.range (⌈(d - t) / step⌉).toNat).map
          (fun i : ℕ => mkPlan d s (t + (i : ℚ) * step)) := by
  intro fuel
  induction fuel with
  | zero =>
    intro t ht
    simp [planLoopFuel, Nat.le_zero.mp ht]
  | succ n ih =>
    intro t ht
    by_cases h : t < d
    · have hq : 0 < (d - t) / step := div_pos (by linarith) hstep
      have hc : 0 < ⌈(d - t) / step⌉ := Int.ceil_pos.mpr hq
      have key : (d - (t + step)) / step = (d - t) / step - 1 := by
        have e : d - (t + step) = d - t - step := by ring
        rw [e, sub_div, div_self (ne_of_gt hstep)]
      have hcc : ⌈(d - (t + step)) / step⌉ = ⌈(d - t) / step⌉ - 1 := by
        rw [key]
        exact_mod_cast Int.ceil_sub_int ((d - t) / step) 1
      have hfuel : (⌈(d - (t + step)) / step⌉).toNat ≤ n := by omega
      have hrange : (⌈(d - t) / step⌉).toNat = (⌈(d - (t + step)) / step⌉).toNat + 1 := by
        omega
      rw [planLoopFuel, if_pos h, ih (t + step) hfuel, hrange, List.range_succ_eq_map]
      rw [List.map_cons, List.map_map]
      refine congrArg₂ List.cons ?_ ?_
      · norm_num
      · refine List.map_congr_left fun i _ => ?_
        show mkPlan d s (t + step + (i : ℚ) * step) = mkPlan d s (t + ((i + 1 : ℕ) : ℚ) * step)
        congr 1
        push_cast
        ring
    · have hd : (d - t) / step ≤ 0 :=
        div_nonpos_iff.mpr (Or.inr ⟨by linarith, hstep.le⟩)
      have h0 : ⌈(d - t) / step⌉ ≤ 0 := Int.ceil_le.mpr (by exact_mod_cast hd)
      have h00 : (⌈(d - t) / step⌉).toNat = 0 := by omega
      rw [h00]
      simp [planLoopFuel, h]

/-- Closed form of `splitPlans` for every configuration on which the source
loop terminates (`overlap < segment length`). -/
theorem splitPlans_eq (d s o : ℚ) (hos : o < s) :
    splitPlans d s o =
      (List.range (⌈d / (s - o)⌉).toNat).map
        (fun i : ℕ => mkPlan d s ((i : ℚ) * (s - o))) := by
  have hstep : 0 < s - o := by linarith
  have hf := ceil_toNat_le_num_toNat_succ (d / (s - o))
  have h := planLoopFuel_closed d s (s - o) hstep ((d / (s - o)).num.toNat + 1) 0
    (by rw [sub_zero]; omega)
  rw [splitPlans, h, sub_zero]
  exact List.map_congr_left fun i _ => by rw [zero_add]

/-- A positive duration always yields at least one plan. -/
theorem splitPlans_ne_nil (d s o : ℚ) (hd : 0 < d) : splitPlans d s o ≠ [] := by
  rw [splitPlans, planLoopFuel, if_pos hd]
  exact List.cons_ne_nil _ _

/-- A non-positive duration yields no plans. -/
theorem splitPlans_nil_of_nonpos (d s o : ℚ) (hd : d ≤ 0) : splitPlans d s o = [] := by
  rw [splitPlans, planLoopFuel, if_neg (not_lt.mpr hd)]

/-- The loop-iteration count of the 125/60/10 scenario. -/
theorem ceilTotalBySteps : (⌈(125 : ℚ) / (60 - 10)⌉).toNat = 3 := by
  have hc : (⌈(125 : ℚ) / (60 - 10)⌉ : ℤ) = 3 := by
    rw [Int.ceil_eq_iff]
    norm_num
  rw [hc]
  rfl

/-- Every segment `create_segment` returns is the canonical segment of its
plan. -/
theorem createSegment_some_eq (fs : FileSys) (tr : Transcoder) (p : SegmentPlan)
    (a : AudioSegment) (h : (createSegment fs tr p).1 = some a) : a = segOf p := by
  unfold createSegment runTranscode at h
  rcases hf : fs p.file with _ | sz <;> rw [hf] at h
  · rcases ht : tr p with _ | st <;> rw [ht] at h
    · simp at h
    · rcases st with _ | sz2
      · simp at h
      · by_cases h2 : sz2 > 1000 <;> simp [h2] at h
        exact h.symm
  · by_cases h1 : sz > 1000
    · simp [h1] at h
      exact h.symm
    · simp [h1] at h
      rcases ht : tr p with _ | st <;> rw [ht] at h
      · simp at h
      · rcases st with _ | sz2
        · simp at h
        · by_cases h2 : sz2 > 1000 <;> simp [h2] at h
          exact h.symm

/-- Materialization keeps exactly the successful plans, in submission
order, mapped to their canonical segments. -/
theorem materialize_filter (fs : FileSys) (tr : Transcoder) (plans : List SegmentPlan) :
    materialize fs tr plans =
      (plans.filter (fun p => ((createSegment fs tr p).1).isSome)).map segOf := by
  induction plans with
  | nil => rfl
  | cons p ps ih =>
    unfold materialize at ih ⊢
    rcases hc : (createSegment fs tr p).1 with _ | a
    · simp [List.filterMap_cons, hc, List.filter_cons, ih]
    · have ha : a = segOf p := createSegment_some_eq fs tr p a hc
      simp [List.filterMap_cons, hc, List.filter_cons, ih, ha]

/-- A failed per-entry removal leaves its warning in the removal log. -/
theorem removeEntries_mem_log (es : List Entry) (e : Entry) (he : e ∈ es)
    (hf : e.removeFails = true) (hk : e.kind ≠ EntryKind.other) :
    ("Failed to remove " ++ e.name) ∈ (removeEntries es).2 := by
  induction es with
  | nil => cases he
  | cons a as ih =>
    rcases List.mem_cons.mp he with rfl | hmem
    · rcases hke : e.kind with _ | _ | _
      · simp [removeEntries, hke, hf]
      · simp [removeEntries, hke, hf]
      · exact absurd hke hk
    · have htail := ih hmem
      rcases hka : a.kind with _ | _ | _ <;> rcases hfa : a.removeFails with _ | _ <;>
        simp [removeEntries, hka, hfa, htail]

/-- Entry removal never touches a surviving entry's identity: survivors
are a sublist of the input (not needed below, but the loop's shape). -/
theorem removeEntries_nil : removeEntries [] = ([], []) := rfl

/-- `cleanup` removes the directory and all of its contents whenever the
directory-tree removal succeeds (the well-formedness hypothesis says a
non-existent directory holds no entries). -/
theorem cleanup_removes_all (w : CleanupWorld) (h : w.rmtreeRootFails = false)
    (hwf : w.tempDirExists = false → w.entries = []) :
    (cleanup w).1.tempDirExists = false ∧ (cleanup w).1.entries = [] := by
  by_cases hd : w.tempDirExists = true
  · simp [cleanup, hd, h]
  · have hd' : w.tempDirExists = false := by
      revert hd
      rcases w.tempDirExists with _ | _ <;> simp
    simp [cleanup, hd', hwf hd']

/-- Nominal start of a planned window. -/
theorem mkPlan_start (d s t : ℚ) : (mkPlan d s t).start_time = t := rfl

/-- Nominal length of a planned window. -/
theorem mkPlan_len (d s t : ℚ) : (mkPlan d s t).length = min s (d - t) := rfl

/-- When every plan's output file is already present above the size
threshold, materialization reuses every plan. -/
theorem materialize_all_reused (fs : FileSys) (tr : Transcoder) (plans : List SegmentPlan)
    (hfs : ∀ f, fs f = some 2000) :
    materialize fs tr plans = plans.map segOf := by
  have hc : ∀ p : SegmentPlan, (createSegment fs tr p).1 = some (segOf p) := by
    intro p
    simp [createSegment, hfs]
  rw [materialize_filter]
  rw [List.filter_eq_self.mpr (fun p _ => by rw [hc p]; rfl)]

/-- Evaluation of `split_audio` in an environment whose files all already
exist with 2000 bytes. -/
theorem splitAudioFile_reuse (env : Env) (d : ℚ) (hd : 0 < d)
    (ha : env.audioRead = .ok d)
    (hm : env.mkdirRaises = none)
    (hfs : ∀ f, env.fs f = some 2000)
    (hcpu : env.cpuCount = some 4) :
    splitAudioFile env =
      .ok ((splitPlans d env.cfg.segment_length env.cfg.overlap_duration).map segOf) := by
  have hne : ¬ ((splitPlans d env.cfg.segment_length env.cfg.overlap_duration).isEmpty = true) := by
    rw [List.isEmpty_iff]
    exact splitPlans_ne_nil _ _ _ hd
  simp only [splitAudioFile, ha, hm, hcpu]
  rw [if_neg hne, materialize_all_reused env.fs env.tr _ hfs]

/-- A failed per-entry removal is visible in the cleanup log. -/
theorem cleanup_mem_entry_log (w : CleanupWorld) (e : Entry) (he : e ∈ w.entries)
    (hf : e.removeFails = true) (hk : e.kind ≠ EntryKind.other)
    (hwf : w.tempDirExists = false → w.entries = []) :
    ("Failed to remove " ++ e.name) ∈ (cleanup w).2 := by
  have hmem := removeEntries_mem_log w.entries e he hf hk
  cases hd : w.tempDirExists with
  | true =>
    cases hr : w.rmtreeRootFails <;> cases hrd : w.rmdirFails <;>
      simp [cleanup, hd, hr, hrd, hmem]
  | false =>
    rw [hwf hd] at he
    cases he

/-- A failed directory-tree removal is visible in the cleanup log. -/
theorem cleanup_mem_rmtree_log (w : CleanupWorld) (hd : w.tempDirExists = true)
    (hr : w.rmtreeRootFails = true) :
    "Could not remove temp directory" ∈ (cleanup w).2 := by
  cases hrd : w.rmdirFails <;> simp [cleanup, hd, hr, hrd]

/-- A failed backend close is visible in the cleanup log. -/
theorem cleanup_mem_close_log (w : CleanupWorld) (hc : w.closeFails = true) :
    "Error cleaning up identification manager" ∈ (cleanup w).2 := by
  cases hd : w.tempDirExists <;> cases hr : w.rmtreeRootFails <;>
    cases hrd : w.rmdirFails <;> simp [cleanup, hd, hr, hrd, hc]

/-! ## Claim theorems -/

/-- C3: for every `totalDuration > 0` and configuration with
`0 < overlapLength < segmentLength`, the planner emits exactly
`⌈totalDuration / step⌉` plans (`step = segmentLength − overlapLength`),
the `i`-th plan's nominal window starting at `i·step` with nominal length
`min(segmentLength, totalDuration − i·step)`; the 125/60/10 scenario is
instantiated in the witness. -/
theorem splitPlans_count_and_windows (d s o : ℚ)
    (hd : 0 < d) (ho : 0 < o) (hos : o < s) :
    (splitPlans d s o).length = (⌈d / (s - o)⌉).toNat ∧
    ∀ (i : ℕ) (hi : i < (splitPlans d s o).length),
      ((splitPlans d s o).get ⟨i, hi⟩).start_time = (i : ℚ) * (s - o) ∧
      ((splitPlans d s o).get ⟨i, hi⟩).length = min s (d - (i : ℚ) * (s - o)) := by
  have he := splitPlans_eq d s o hos
  constructor
  · rw [he]
    simp
  · intro i hi
    constructor <;>
      simp only [he, List.get_eq_getElem, List.getElem_map, List.getElem_range,
        mkPlan_start, mkPlan_len]

/-- Witness for C3 at the spec's scenario `totalDuration=125`,
`segmentLength=60`, `overlapLength=10`: three windows at starts
`[0, 50, 100]`, last window length 25. -/
theorem splitPlans_count_and_windows_witness :
    (0 : ℚ) < 125 ∧ (0 : ℚ) < 10 ∧ (10 : ℚ) < 60 ∧
    (splitPlans 125 60 10).length = 3 ∧
    (splitPlans 125 60 10).map (fun p => p.start_time) = [0, 50, 100] ∧
    (splitPlans 125 60 10).map (fun p => p.length) = [60, 60, 25] := by
  have h := (splitPlans_count_and_windows 125 60 10 (by norm_num) (by norm_num)
    (by norm_num)).1
  have he := splitPlans_eq 125 60 10 (by norm_num)
  rw [ceilTotalBySteps] at he
  have hr : List.range 3 = [0, 1, 2] := rfl
  rw [hr] at he
  refine ⟨by norm_num, by norm_num, by norm_num, by rw [h, ceilTotalBySteps], ?_, ?_⟩
  · rw [he]
    norm_num [mkPlan_start]
  · rw [he]
    norm_num [mkPlan_len, min_def]

/-- C4 (amended): for `overlapLength < segmentLength`, window `i+1` always
starts at `start_i + (segmentLength − overlapLength)`, and the nominal end
of window `i` exceeds the nominal start of window `i+1` by exactly
`overlapLength` whenever window `i` is untruncated
(`segmentLength ≤ totalDuration − i·step`); truncated trailing windows can
overlap by less, as the counterexample shows. -/
theorem splitPlans_consecutive_overlap (d s o : ℚ) (hos : o < s) (i : ℕ)
    (p q : SegmentPlan)
    (hp : (splitPlans d s o)[i]? = some p)
    (hq : (splitPlans d s o)[i + 1]? = some q) :
    q.start_time = p.start_time + (s - o) ∧
    (s ≤ d - (i : ℚ) * (s - o) →
      p.start_time + p.length - q.start_time = o) := by
  have he := splitPlans_eq d s o hos
  rw [he] at hp hq
  have hlen : i + 1 < (⌈d / (s - o)⌉).toNat := by
    by_contra hcon
    have hnone : ((List.range (⌈d / (s - o)⌉).toNat).map
        (fun i : ℕ => mkPlan d s ((i : ℚ) * (s - o))))[i + 1]? = none := by
      apply List.getElem?_eq_none
      simpa using Nat.le_of_not_lt hcon
    rw [hnone] at hq
    cases hq
  have hp' : p = mkPlan d s ((i : ℚ) * (s - o)) := by
    rw [List.getElem?_map, List.getElem?_range (by omega)] at hp
    simpa using hp.symm
  have hq' : q = mkPlan d s (((i + 1 : ℕ) : ℚ) * (s - o)) := by
    rw [List.getElem?_map, List.getElem?_range hlen] at hq
    simpa using hq.symm
  subst hp' hq'
  constructor
  · rw [mkPlan_start, mkPlan_start]
    push_cast
    ring
  · intro hle
    rw [mkPlan_start, mkPlan_start, mkPlan_len, min_eq_left hle]
    push_cast
    ring

/-- C4 counterexample: with `totalDuration=35`, `segmentLength=60`,
`overlapLength=50` (so `0 < overlap < segment length`), the planner's
windows are `[0,35) [10,35) [20,35) [30,35)`: the nominal end of window 0
exceeds the nominal start of window 1 by `35 − 10 = 25 ≠ 50`, refuting
the claimed exact-`overlapLength` overlap for every consecutive pair. -/
theorem splitPlans_consecutive_overlap_counterexample :
    (0 : ℚ) < 50 ∧ (50 : ℚ) < 60 ∧ (0 : ℚ) < 35 ∧
    (splitPlans 35 60 50).map (fun p => p.start_time) = [0, 10, 20, 30] ∧
    (splitPlans 35 60 50).map (fun p => p.start_time + p.length) = [35, 35, 35, 35] ∧
    (35 : ℚ) - 10 ≠ 50 := by
  have hc : (⌈(35 : ℚ) / (60 - 50)⌉ : ℤ) = 4 := by
    rw [Int.ceil_eq_iff]
    norm_num
  have he := splitPlans_eq 35 60 50 (by norm_num)
  rw [hc] at he
  have hr : List.range (Int.toNat 4) = [0, 1, 2, 3] := rfl
  rw [hr] at he
  refine ⟨by norm_num, by norm_num, by norm_num, ?_, ?_, by norm_num⟩
  · rw [he]
    norm_num [mkPlan_start]
  · rw [he]
    norm_num [mkPlan_start, mkPlan_len, min_def]

/-- Witness for C4 (amended) at the 125/60/10 scenario: window 1 starts at
window 0's start plus the 50-second step, and window 0 being untruncated,
the nominal overlap is exactly 10. -/
theorem splitPlans_consecutive_overlap_witness :
    (10 : ℚ) < 60 ∧
    (splitPlans 125 60 10)[0]? = some (mkPlan 125 60 0) ∧
    (splitPlans 125 60 10)[1]? = some (mkPlan 125 60 50) ∧
    (mkPlan 125 60 50).start_time = (mkPlan 125 60 0).start_time + (60 - 10) ∧
    (mkPlan 125 60 0).start_time + (mkPlan 125 60 0).length
      - (mkPlan 125 60 50).start_time = 10 := by
  have he := splitPlans_eq 125 60 10 (by norm_num)
  rw [ceilTotalBySteps] at he
  have hr : List.range 3 = [0, 1, 2] := rfl
  rw [hr] at he
  have hp : (splitPlans 125 60 10)[0]? = some (mkPlan 125 60 0) := by
    rw [he]
    norm_num
  have hq : (splitPlans 125 60 10)[1]? = some (mkPlan 125 60 50) := by
    rw [he]
    norm_num
  have h := splitPlans_consecutive_overlap 125 60 10 (by norm_num) 0
    (mkPlan 125 60 0) (mkPlan 125 60 50) hp hq
  exact ⟨by norm_num, hp, hq, h.1, h.2 (by norm_num)⟩

/-- C5: materializing a plan again when a previous materialization left
its output file above the 1000-byte threshold performs no transcoder
invocation (second component `false`, for any transcoder oracle) and
returns the same `AudioSegment` as the first successful materialization. -/
theorem createSegment_idempotent (fs₀ fs₁ : FileSys) (tr₀ tr₁ : Transcoder)
    (p : SegmentPlan) (seg : AudioSegment) (sz : ℕ)
    (h₀ : (createSegment fs₀ tr₀ p).1 = some seg)
    (h₁ : fs₁ p.file = some sz) (hsz : 1000 < sz) :
    createSegment fs₁ tr₁ p = (some seg, false) := by
  have hseg : seg = segOf p := createSegment_some_eq fs₀ tr₀ p seg h₀
  unfold createSegment
  rw [h₁]
  show (if sz > 1000 then (some (segOf p), false) else runTranscode tr₁ p) = (some seg, false)
  rw [if_pos hsz, hseg]

/-- Witness for C5: first run transcodes onto an empty file system and
succeeds; the re-run on the resulting 2000-byte file skips the (here
always-raising) transcoder and returns the identical segment. -/
theorem createSegment_idempotent_witness :
    (createSegment fsEmpty trWrites2000 pWitness).1 = some (segOf pWitness) ∧
    fsWithOutput pWitness.file = some 2000 ∧ 1000 < 2000 ∧
    createSegment fsWithOutput trRaises pWitness = (some (segOf pWitness), false) := by
  refine ⟨rfl, rfl, by norm_num, ?_⟩
  exact createSegment_idempotent fsEmpty fsWithOutput trWrites2000 trRaises pWitness
    (segOf pWitness) 2000 rfl rfl (by norm_num)

/-- C6: materialization never raises (it is a total function) and returns
exactly the successfully materialized segments — the failed plans (raised
transcode, missing or undersized output) filtered out — in planner
submission order: it equals the order-preserving filter of the plan list
mapped to canonical segments, and its length plus the number of failures
is the number of plans. -/
theorem materialize_partial_tolerance (fs : FileSys) (tr : Transcoder)
    (plans : List SegmentPlan) :
    materialize fs tr plans =
      (plans.filter (fun p => ((createSegment fs tr p).1).isSome)).map segOf ∧
    (materialize fs tr plans).length
        + (plans.filter (fun p => ((createSegment fs tr p).1).isNone)).length
      = plans.length := by
  refine ⟨materialize_filter fs tr plans, ?_⟩
  rw [materialize_filter fs tr plans, List.length_map]
  induction plans with
  | nil => rfl
  | cons p ps ih =>
    rcases hc : (createSegment fs tr p).1 with _ | a <;>
      simp [List.filter_cons, hc] <;> omega

/-- C9 (amended): the mix-info record has `track_count` equal to the track
list's length and `date` equal to the build-time date; the `duration` key
is copied from the stored metadata exactly when that value is truthy
(non-zero) — the stored value is always a float in this flow, so the
`float(...)` conversion never fails — and omitted when it is zero. -/
theorem buildMixInfo_fields (title uploader : String) (dur : ℚ) (today : String)
    (tracks : List Track) :
    (buildMixInfo title uploader dur today tracks).track_count = tracks.length ∧
    (buildMixInfo title uploader dur today tracks).date = today ∧
    (dur ≠ 0 → (buildMixInfo title uploader dur today tracks).duration = some dur) ∧
    (dur = 0 → (buildMixInfo title uploader dur today tracks).duration = none) := by
  refine ⟨rfl, rfl, fun h => ?_, fun h => ?_⟩
  · simp [buildMixInfo, h]
  · simp [buildMixInfo, h]

/-- Witness for C9 (amended) with a non-zero stored duration. -/
theorem buildMixInfo_fields_witness :
    (5 : ℚ) ≠ 0 ∧
    (buildMixInfo "T" "U" 5 "2026-10-12" []).duration = some 5 ∧
    (buildMixInfo "T" "U" 5 "2026-10-12" []).track_count = 0 ∧
    (buildMixInfo "T" "U" 5 "2026-10-12" []).date = "2026-10-12" := by
  have h := buildMixInfo_fields "T" "U" 5 "2026-10-12" []
  exact ⟨by norm_num, h.2.2.1 (by norm_num), h.1, h.2.1⟩

/-- C9 counterexample: a stored duration of 0 (the value every local-file
run stores) is a number — hence "parseable as a number" — yet the builder
omits the `duration` key, because the source guards it with Python
truthiness (`if duration:`) before parsing. -/
theorem buildMixInfo_zero_duration_counterexample :
    (buildMixInfo "Mix" "Artist" 0 "2026-02-03" []).duration = none ∧
    (buildMixInfo "Mix" "Artist" 0 "2026-02-03" []).duration ≠ some 0 := by
  constructor
  · simp [buildMixInfo]
  · simp [buildMixInfo]

/-- C2: when segmentation produced a non-empty segment list and the
recognition backend returns no tracks, `process_input` raises
`TrackIdentificationError` whose context carries `segments_created` equal
to the number of materialized segments, `input_path` equal to the run's
source reference, and `file_duration` equal to the stored duration. -/
theorem processInput_zero_tracks (env : Env) (w : CleanupWorld) (prep : PrepResult)
    (segs : List AudioSegment)
    (hp : env.prep = .ok prep)
    (hseg : splitAudioFile env = .ok segs)
    (hne : segs ≠ [])
    (hid : env.identify segs = .ok []) :
    (processInput env w).result =
      .error (.trackIdentification (noTracksMsg segs.length)
        { segments_created := segs.length
          input_path := prep.sourcePath
          file_duration := prep.duration }) := by
  have h1 : segs.isEmpty = false := by
    rcases segs with _ | ⟨a, l⟩
    · exact absurd rfl hne
    · rfl
  simp [processInput, bodyRun, hp, hseg, h1, hid]

/-- Witness for C2: the 125/60/10 environment with all segment files
reused materializes 3 segments; a backend returning `[]` yields the
`TrackIdentificationError` with context `(3, "src", 7)`. -/
theorem processInput_zero_tracks_witness :
    (processInput envZeroTracks wCleanWorld).result =
      .error (.trackIdentification (noTracksMsg 3)
        { segments_created := 3, input_path := "src", file_duration := 7 }) := by
  have hsa : splitAudioFile envZeroTracks = .ok ((splitPlans 125 60 10).map segOf) :=
    splitAudioFile_reuse envZeroTracks 125 (by norm_num) rfl rfl (fun _ => rfl) rfl
  have hlen : ((splitPlans 125 60 10).map segOf).length = 3 := by
    rw [List.length_map, splitPlans_eq 125 60 10 (by norm_num),
      List.length_map, List.length_range, ceilTotalBySteps]
  have hne : (splitPlans 125 60 10).map segOf ≠ [] := by
    intro hcon
    rw [hcon] at hlen
    cases hlen
  have h := processInput_zero_tracks envZeroTracks wCleanWorld
    { localPath := "mix.mp3"
      sourcePath := "src"
      title := "T"
      uploader := "U"
      duration := 7 } ((splitPlans 125 60 10).map segOf) rfl hsa hne rfl
  rw [h, hlen]

/-- C7: if materialization yields zero segments, `process_input`
terminates with the stage error `"No audio segments were created"` and
the recognition backend is never invoked for that run. -/
theorem processInput_zero_segments (env : Env) (w : CleanupWorld) (prep : PrepResult)
    (hp : env.prep = .ok prep) (hseg : splitAudioFile env = .ok []) :
    (processInput env w).result = .error (.valueError "No audio segments were created") ∧
    (processInput env w).recognitionCalled = false := by
  constructor <;> simp [processInput, bodyRun, hp, hseg]

/-- Witness for C7: an unrecognized audio file yields zero segments; the
run fails with the stage error without calling recognition. -/
theorem processInput_zero_segments_witness :
    envUnrecognized.prep =
      .ok { localPath := "mix.mp3"
            sourcePath := "src"
            title := "T"
            uploader := "U"
            duration := 7 } ∧
    splitAudioFile envUnrecognized = .ok [] ∧
    (processInput envUnrecognized wCleanWorld).result =
      .error (.valueError "No audio segments were created") ∧
    (processInput envUnrecognized wCleanWorld).recognitionCalled = false := by
  have h := processInput_zero_segments envUnrecognized wCleanWorld
    { localPath := "mix.mp3"
      sourcePath := "src"
      title := "T"
      uploader := "U"
      duration := 7 } rfl rfl
  exact ⟨rfl, rfl, h.1, h.2⟩

/-- C8: the Output Writer never fails the run.  `save_output` is a total
function (its return type has no failure case): with an empty track list
or a non-string format it returns after logging an error without reaching
the serializer; a raising `TracklistOutput` constructor, a raising
`save_all` (under `format == "all"`), and a raising single-format `save`
are each caught and logged; and a run whose recognition stage returned a
non-empty track list ends in `.ok ()` whatever the serializer oracles do. -/
theorem saveOutput_never_fails_run :
    (∀ (format : FormatArg) (t u : String) (dq : ℚ) (td : String)
        (ser : SerializerOracle),
        saveOutput [] format t u dq td ser =
          { log := ["Cannot save output: No tracks provided"],
            serializerReached := false }) ∧
    (∀ (tracks : List Track) (t u : String) (dq : ℚ) (td : String)
        (ser : SerializerOracle), tracks ≠ [] →
        saveOutput tracks .nonString t u dq td ser =
          { log := ["Failed to save tracklist in format: invalid format type"],
            serializerReached := false }) ∧
    (∀ (tracks : List Track) (fmt t u : String) (dq : ℚ) (td : String)
        (ser : SerializerOracle), tracks ≠ [] → ser.ctorRaises = true →
        saveOutput tracks (.str fmt) t u dq td ser =
          { log := ["Error saving tracklist"], serializerReached := true }) ∧
    (∀ (tracks : List Track) (t u : String) (dq : ℚ) (td : String)
        (ser : SerializerOracle), tracks ≠ [] → ser.ctorRaises = false →
        ser.saveAll = .error () →
        saveOutput tracks (.str "all") t u dq td ser =
          { log := ["Error saving tracklist"], serializerReached := true }) ∧
    (∀ (tracks : List Track) (fmt t u : String) (dq : ℚ) (td : String)
        (ser : SerializerOracle), tracks ≠ [] → fmt ≠ "all" →
        ser.ctorRaises = false → ser.save fmt = .error () →
        saveOutput tracks (.str fmt) t u dq td ser =
          { log := ["Error saving tracklist"], serializerReached := true }) ∧
    (∀ (env : Env) (w : CleanupWorld) (prep : PrepResult)
        (segs : List AudioSegment) (tracks : List Track),
        env.prep = .ok prep → splitAudioFile env = .ok segs → segs ≠ [] →
        env.identify segs = .ok tracks → tracks ≠ [] →
        (processInput env w).result = .ok ()) := by
  refine ⟨?_, ?_, ?_, ?_, ?_, ?_⟩
  · intro format t u dq td ser
    simp [saveOutput]
  · intro tracks t u dq td ser h
    simp [saveOutput, List.length_eq_zero, h]
  · intro tracks fmt t u dq td ser h hc
    simp [saveOutput, List.length_eq_zero, h, hc]
  · intro tracks t u dq td ser h hc hsa
    simp [saveOutput, List.length_eq_zero, h, hc, hsa]
  · intro tracks fmt t u dq td ser h hfmt hc hs
    simp [saveOutput, List.length_eq_zero, h, hc, hfmt, hs]
  · intro env w prep segs tracks hp hseg hne hid htr
    have h1 : segs.isEmpty = false := by
      rcases segs with _ | ⟨a, l⟩
      · exact absurd rfl hne
      · rfl
    have h2 : tracks.isEmpty = false := by
      rcases tracks with _ | ⟨a, l⟩
      · exact absurd rfl htr
      · rfl
    simp [processInput, bodyRun, hp, hseg, h1, hid, h2]

/-- Witness for C8: a run that identifies one track ends in `.ok ()` even
though the serializer oracle raises on save; and the empty-track guard
logs without reaching the serializer. -/
theorem saveOutput_never_fails_run_witness :
    (processInput envOneTrack wCleanWorld).result = .ok () ∧
    saveOutput [] (.str "json") "T" "U" 7 "2026-10-12" serRaisingSave =
      { log := ["Cannot save output: No tracks provided"],
        serializerReached := false } := by
  have hsa : splitAudioFile envOneTrack = .ok ((splitPlans 125 60 10).map segOf) :=
    splitAudioFile_reuse envOneTrack 125 (by norm_num) rfl rfl (fun _ => rfl) rfl
  have hne : (splitPlans 125 60 10).map segOf ≠ [] := by
    intro hcon
    have h3 := splitPlans_ne_nil 125 60 10 (by norm_num)
    exact h3 (List.map_eq_nil_iff.mp hcon)
  constructor
  · exact saveOutput_never_fails_run.2.2.2.2.2 envOneTrack wCleanWorld
      { localPath := "mix.mp3"
        sourcePath := "src"
        title := "T"
        uploader := "U"
        duration := 7 }
      ((splitPlans 125 60 10).map segOf)
      [{ artist := "A", song_name := "B" }] rfl hsa hne rfl (by simp)
  · exact saveOutput_never_fails_run.1 (.str "json") "T" "U" 7 "2026-10-12" serRaisingSave

/-- C10 (amended): under the configuration invariant `0 < step` (spec
§4.2; with `step ≤ 0` the source loop would not terminate),
`split_audio` returns `[]` when the audio object is `None` (unrecognized
file), when the duration cannot be determined (`AttributeError`, caught),
when the duration is non-positive (empty plan list), and when
`os.cpu_count()` is `None`; every exception raised while creating an
individual segment is caught, so that segment is dropped and the
remaining successful plans are returned in order.  It is not total,
however: an exception raised by `mutagen.File` itself or by
`temp_dir.mkdir` — both outside every `try` of the function — propagates
to the caller, as the counterexample shows. -/
theorem splitAudioFile_handled_vs_propagated (env : Env)
    (hstep : 0 < env.cfg.segment_length - env.cfg.overlap_duration) :
    (env.audioRead = .unrecognized → splitAudioFile env = .ok []) ∧
    (env.audioRead = .noDuration → splitAudioFile env = .ok []) ∧
    (∀ e : RunError, env.audioRead = .raised e → splitAudioFile env = .error e) ∧
    (∀ (d : ℚ) (e : RunError), env.audioRead = .ok d → env.mkdirRaises = some e →
      splitAudioFile env = .error e) ∧
    (∀ d : ℚ, env.audioRead = .ok d → env.mkdirRaises = none → d ≤ 0 →
      splitAudioFile env = .ok []) ∧
    (∀ d : ℚ, env.audioRead = .ok d → env.mkdirRaises = none → env.cpuCount = none →
      splitAudioFile env = .ok []) ∧
    (∀ d : ℚ, env.audioRead = .ok d → env.mkdirRaises = none → 0 < d →
      env.cpuCount ≠ none →
      splitAudioFile env =
        .ok (((splitPlans d env.cfg.segment_length env.cfg.overlap_duration).filter
            (fun p => ((createSegment env.fs env.tr p).1).isSome)).map segOf)) := by
  refine ⟨?_, ?_, ?_, ?_, ?_, ?_, ?_⟩
  · intro h
    simp [splitAudioFile, h]
  · intro h
    simp [splitAudioFile, h]
  · intro e h
    simp [splitAudioFile, h]
  · intro d e ha hm
    simp [splitAudioFile, ha, hm]
  · intro d ha hm hd
    rcases hcpu : env.cpuCount with _ | c <;>
      simp [splitAudioFile, ha, hm, hcpu, splitPlans_nil_of_nonpos d _ _ hd]
  · intro d ha hm hcpu
    simp [splitAudioFile, ha, hm, hcpu]
  · intro d ha hm hd hcpu
    rcases hc : env.cpuCount with _ | c
    · exact absurd hc hcpu
    · have hne : ¬ ((splitPlans d env.cfg.segment_length
          env.cfg.overlap_duration).isEmpty = true) := by
        rw [List.isEmpty_iff]
        exact splitPlans_ne_nil _ _ _ hd
      simp only [splitAudioFile, ha, hm, hc]
      rw [if_neg hne, materialize_filter env.fs env.tr]

/-- Witness for C10 (amended): in the unrecognized-file environment
(whose configuration satisfies the step invariant), `split_audio`
returns `.ok []`. -/
theorem splitAudioFile_handled_vs_propagated_witness :
    (0 : ℚ) < envUnrecognized.cfg.segment_length - envUnrecognized.cfg.overlap_duration ∧
    envUnrecognized.audioRead = .unrecognized ∧
    splitAudioFile envUnrecognized = .ok [] := by
  refine ⟨?_, rfl, ?_⟩
  · norm_num [envUnrecognized, envZeroTracks]
  · exact (splitAudioFile_handled_vs_propagated envUnrecognized
      (by norm_num [envUnrecognized, envZeroTracks])).1 rfl

/-- C10 counterexample: `split_audio` is not total.  `mutagen.File`
raises `MutagenError` for an unopenable file — the `if audio is None`
check at base.py:118 only covers a `None` return — and
`temp_dir.mkdir(parents=True, exist_ok=True)` at base.py:136 runs
outside any `try`; in both concrete environments the call propagates the
exception instead of returning a list. -/
theorem splitAudioFile_raises_counterexample :
    splitAudioFile envMutagenRaises = .error (.backend "MutagenError") ∧
    splitAudioFile envMkdirRaises = .error (.backend "PermissionError") := by
  exact ⟨rfl, rfl⟩

/-- C1 (amended): cleanup runs unconditionally as the run's final phase —
the final temp-directory state and cleanup log of every `process_input`
call, on every path (success or any error), are exactly `cleanup`'s; the
run's outcome never depends on cleanup failures (they are swallowed);
when the directory-tree removal succeeds, the temp directory and all of
its contents are gone; per-file removal, directory-tree removal and
backend-close failures each leave a log line, while the fallback
`rmdir`'s own failure is swallowed silently (`except Exception: pass`),
as the counterexample shows. -/
theorem processInput_cleanup_discipline (env : Env) (w : CleanupWorld)
    (hwf : w.tempDirExists = false → w.entries = []) :
    ((processInput env w).world, (processInput env w).cleanupLog)
        = cleanup (if mkdirReached env then { w with tempDirExists := true } else w) ∧
    (∀ w' : CleanupWorld, (processInput env w).result = (processInput env w').result) ∧
    (w.rmtreeRootFails = false →
      (processInput env w).world.tempDirExists = false ∧
      (processInput env w).world.entries = []) ∧
    (∀ e ∈ w.entries, e.removeFails = true → e.kind ≠ EntryKind.other →
      ("Failed to remove " ++ e.name) ∈ (processInput env w).cleanupLog) ∧
    (w.tempDirExists = true → w.rmtreeRootFails = true →
      "Could not remove temp directory" ∈ (processInput env w).cleanupLog) ∧
    (w.closeFails = true →
      "Error cleaning up identification manager" ∈ (processInput env w).cleanupLog) := by
  set w₁ := if mkdirReached env then { w with tempDirExists := true } else w with hw₁
  have hroot : w₁.rmtreeRootFails = w.rmtreeRootFails := by
    by_cases hm : mkdirReached env <;> simp [hw₁, hm]
  have hent : w₁.entries = w.entries := by
    by_cases hm : mkdirReached env <;> simp [hw₁, hm]
  have hclose : w₁.closeFails = w.closeFails := by
    by_cases hm : mkdirReached env <;> simp [hw₁, hm]
  have hwf₁ : w₁.tempDirExists = false → w₁.entries = [] := by
    by_cases hm : mkdirReached env
    · simp [hw₁, hm]
    · simpa [hw₁, hm] using hwf
  refine ⟨rfl, fun w' => rfl, ?_, ?_, ?_, ?_⟩
  · intro hr
    exact cleanup_removes_all w₁ (by rw [hroot]; exact hr) hwf₁
  · intro e he hf hk
    exact cleanup_mem_entry_log w₁ e (by rw [hent]; exact he) hf hk hwf₁
  · intro hd hr
    have hd₁ : w₁.tempDirExists = true := by
      by_cases hm : mkdirReached env <;> simp [hw₁, hm, hd]
    exact cleanup_mem_rmtree_log w₁ hd₁ (by rw [hroot]; exact hr)
  · intro hc
    exact cleanup_mem_close_log w₁ (by rw [hclose]; exact hc)

/-- Witness for C1 (amended): a failed input run with a dirty temp
directory — the run's error is the body's own, the directory and its
contents are removed, and both the per-file removal failure and the
backend-close failure appear in the cleanup log. -/
theorem processInput_cleanup_discipline_witness :
    (processInput envInvalidInput wDirtyWorld).result =
      .error (.valueError "Invalid URL or file path provided") ∧
    (processInput envInvalidInput wDirtyWorld).world.tempDirExists = false ∧
    (processInput envInvalidInput wDirtyWorld).world.entries = [] ∧
    "Failed to remove junk.mp3" ∈ (processInput envInvalidInput wDirtyWorld).cleanupLog ∧
    "Error cleaning up identification manager"
      ∈ (processInput envInvalidInput wDirtyWorld).cleanupLog := by
  have h := processInput_cleanup_discipline envInvalidInput wDirtyWorld
    (by simp [wDirtyWorld])
  refine ⟨rfl, (h.2.2.1 rfl).1, (h.2.2.1 rfl).2, ?_, h.2.2.2.2.2 rfl⟩
  exact h.2.2.2.1 { name := "junk.mp3", kind := .file, removeFails := true }
    (by simp [wDirtyWorld]) rfl (by simp)

/-- C1 counterexample: the fallback `rmdir` failure is swallowed but (pace
the claim) not logged: with the directory-tree removal and the fallback
both failing, the cleanup log is identical to the log of the run where
the fallback succeeds — yet the directory remains in one case and is gone
in the other — so the fallback's failure leaves no log line. -/
theorem cleanup_rmdir_failure_not_logged :
    (cleanup { tempDirExists := true, entries := [], rmtreeRootFails := true,
               rmdirFails := true, closeFails := false }).2
      = (cleanup { tempDirExists := true, entries := [], rmtreeRootFails := true,
                   rmdirFails := false, closeFails := false }).2 ∧
    (cleanup { tempDirExists := true, entries := [], rmtreeRootFails := true,
               rmdirFails := true, closeFails := false }).1.tempDirExists = true ∧
    (cleanup { tempDirExists := true, entries := [], rmtreeRootFails := true,
               rmdirFails := false, closeFails := false }).1.tempDirExists = false := by
  refine ⟨rfl, rfl, rfl⟩

end Tracklistify
